import Mathlib

/-!
Verification of the slideshow timeline compositor: data model, easing,
timeline builder, frame resolver and transition dispatch, embedded from the
TypeScript sources (`image-to-video` service, `easing.ts`,
`transition-renderer.ts`). Times and numeric quantities are modelled as
rationals; canvas painting is modelled as symbolic draw operations.
-/

namespace ImageToVideo

/-- 2D position, `{ x, y }` in the Ken Burns configuration. -/
structure Position where
  x : ℚ
  y : ℚ
deriving DecidableEq, Repr

/-- `KenBurnsConfig`: per-slide pan/zoom specification. -/
structure KenBurnsConfig where
  startScale : ℚ
  endScale : ℚ
  startPosition : Position
  endPosition : Position
deriving DecidableEq, Repr

/-- `TransitionConfig`: effect kind (a string literal in the source),
duration in seconds, easing kind. -/
structure TransitionConfig where
  type : String
  duration : ℚ
  easing : String
deriving DecidableEq, Repr

/-- `ImageSlide`: one slide of the request. -/
structure ImageSlide where
  src : String
  duration : ℚ
  transition : Option TransitionConfig
  kenBurns : Option KenBurnsConfig
deriving DecidableEq, Repr

/-- A decoded image source: only its pixel dimensions matter to the
compositor. -/
structure Img where
  width : ℚ
  height : ℚ
deriving DecidableEq, Repr

/-- The `transitionOut` field of a timeline entry: the transition config
augmented with absolute start/end times. -/
structure TransitionOut where
  type : String
  duration : ℚ
  easing : String
  startTime : ℚ
  endTime : ℚ
deriving DecidableEq, Repr

/-- `SlideTimeline`: one entry of the built timeline. `image` is the
slide's decoded image (`images[i]` in the source, which is `undefined`
when the image list is too short, hence `Option`). -/
structure SlideTimeline where
  slide : ImageSlide
  image : Option Img
  startTime : ℚ
  endTime : ℚ
  transitionOut : Option TransitionOut
deriving DecidableEq, Repr

/-- `Math.max(0, Math.min(1, t))`, the clamp used by `applyEasing` and the
Ken Burns progress computation. -/
def clamp01 (t : ℚ) : ℚ := max 0 (min 1 t)

/-- `applyEasing` from `easing.ts`: clamp to [0,1], then dispatch on the
easing kind; unrecognized kinds fall through to the clamped value. -/
def applyEasing (t : ℚ) (easing : String) : ℚ :=
  let clamped := clamp01 t
  if easing = "linear" then clamped
  else if easing = "ease-in" then clamped * clamped * clamped
  else if easing = "ease-out" then 1 - (1 - clamped) ^ 3
  else if easing = "ease-in-out" then
    if clamped < 1/2 then 4 * clamped * clamped * clamped
    else 1 - (-2 * clamped + 2) ^ 3 / 2
  else clamped

/-- The transition-attachment condition of `buildTimeline`:
`i < slides.length - 1 && slide.transition && slide.transition.type !== "none"`.
`isLast` is `i == slides.length - 1`. -/
def activeTransition (isLast : Bool) (tr : Option TransitionConfig) :
    Option TransitionConfig :=
  match isLast, tr with
  | false, some t => if t.type = "none" then none else some t
  | _, _ => none

/-- The loop body of `ImageToVideoService.buildTimeline`, with the running
cursor (`currentTime` in the source) made explicit. Returns the entry list
and the final cursor value (`totalDuration`). -/
def buildTimelineGo : ℚ → List ImageSlide → List Img → List SlideTimeline × ℚ
  | currentTime, [], _ => ([], currentTime)
  | currentTime, slide :: rest, images =>
    let startTime := currentTime
    let endTime := startTime + slide.duration
    match activeTransition rest.isEmpty slide.transition with
    | some t =>
      let transDuration := t.duration
      let transOut : TransitionOut :=
        { type := t.type, duration := t.duration, easing := t.easing,
          startTime := endTime, endTime := endTime + transDuration }
      let entry : SlideTimeline :=
        { slide := slide, image := images.head?, startTime := startTime,
          endTime := endTime, transitionOut := some transOut }
      let result := buildTimelineGo (endTime + transDuration) rest images.tail
      (entry :: result.1, result.2)
    | none =>
      let entry : SlideTimeline :=
        { slide := slide, image := images.head?, startTime := startTime,
          endTime := endTime, transitionOut := none }
      let result := buildTimelineGo endTime rest images.tail
      (entry :: result.1, result.2)

/-- `ImageToVideoService.buildTimeline`: cursor starts at 0. -/
def buildTimeline (slides : List ImageSlide) (images : List Img) :
    List SlideTimeline × ℚ :=
  buildTimelineGo 0 slides images

/-- `Math.ceil(totalDuration * fps)`, as computed in `generateFrames` and
`createRenderLoop`. -/
def totalFramesOf (totalDuration fps : ℚ) : ℤ := ⌈totalDuration * fps⌉

/-- Phase 2 of `generateFrames` / `createRenderLoop`: build the timeline
and compute the frame count. There is no failure path in the source. -/
def generateFramesMeta (slides : List ImageSlide) (images : List Img)
    (fps : ℚ) : List SlideTimeline × ℚ × ℤ :=
  let built := buildTimeline slides images
  (built.1, built.2, totalFramesOf built.2 fps)

/-- The render instruction decided by `ImageToVideoService.renderFrame` for
a given time. Constructors follow the four exits of the source: steady
display (`renderSlideWithKenBurns(entry, time)`), a transition blend
(`renderTransitionFrame(...)`), the in-loop fallback when a transition
interval matched but no next entry exists (also
`renderSlideWithKenBurns(entry, time)`), and the past-the-end fallback
(`drawImageCover(last.image)`). -/
inductive RenderInstruction where
  | display (index : ℕ) (time : ℚ)
  | transitionBlend (fromIndex toIndex : ℕ) (progress : ℚ) (type : String)
  | displayNoNext (index : ℕ) (time : ℚ)
  | lastCover (index : ℕ)
deriving DecidableEq, Repr

/-- The scan loop of `renderFrame`: for each entry in order, first the
display interval check, then the transition interval check; `i` is the
index of the first entry of the remaining list. -/
def resolveFrame : ℚ → ℕ → List SlideTimeline → Option RenderInstruction
  | _, _, [] => none
  | time, i, entry :: rest =>
    if entry.startTime ≤ time ∧ time < entry.endTime then
      some (.display i time)
    else
      match entry.transitionOut with
      | some tr =>
        if tr.startTime ≤ time ∧ time < tr.endTime then
          if rest.isEmpty then some (.displayNoNext i time)
          else
            some (.transitionBlend i (i + 1)
              (applyEasing ((time - tr.startTime) / (tr.endTime - tr.startTime))
                tr.easing)
              tr.type)
        else resolveFrame time (i + 1) rest
      | none => resolveFrame time (i + 1) rest

/-- `ImageToVideoService.renderFrame` at the instruction level: run the
scan; if nothing matched, draw the last entry's image cover-fit (the
source's `timeline[timeline.length - 1]` fallback), or nothing when the
timeline is empty (only the background fill happens). -/
def renderFrame (time : ℚ) (timeline : List SlideTimeline) :
    Option RenderInstruction :=
  match resolveFrame time 0 timeline with
  | some instr => some instr
  | none =>
    if timeline.isEmpty then none
    else some (.lastCover (timeline.length - 1))

/-- A steady-display draw: either a plain cover-fit draw of the image
(`drawImageCover`), or a cover-fit draw under the Ken Burns transform with
the given scale and translation. -/
inductive DrawOp where
  | cover (image : Option Img)
  | kenBurnsDraw (image : Option Img) (scale : ℚ) (posX : ℚ) (posY : ℚ)
deriving DecidableEq, Repr

/-- `ImageToVideoService.renderSlideWithKenBurns`: without a Ken Burns spec
the image is drawn cover-fit; with one, progress is
`(time - startTime) / duration` clamped to [0,1] and scale/position are
linearly interpolated. -/
def renderSlideWithKenBurns (entry : SlideTimeline) (time : ℚ) : DrawOp :=
  match entry.slide.kenBurns with
  | none => .cover entry.image
  | some kb =>
    let slideProgress := (time - entry.startTime) / entry.slide.duration
    let t := max 0 (min 1 slideProgress)
    .kenBurnsDraw entry.image
      (kb.startScale + (kb.endScale - kb.startScale) * t)
      (kb.startPosition.x + (kb.endPosition.x - kb.startPosition.x) * t)
      (kb.startPosition.y + (kb.endPosition.y - kb.startPosition.y) * t)

/-- The steady-display draw performed for an instruction, where one is
performed directly by `renderFrame` (transition instructions instead
delegate to `renderTransitionFrame`, modelled separately below). -/
def instructionDraw (timeline : List SlideTimeline)
    (instr : RenderInstruction) : Option DrawOp :=
  match instr with
  | .display j time => (timeline.get? j).map fun e => renderSlideWithKenBurns e time
  | .displayNoNext j time => (timeline.get? j).map fun e => renderSlideWithKenBurns e time
  | .lastCover j => (timeline.get? j).map fun e => DrawOp.cover e.image
  | .transitionBlend _ _ _ _ => none

/-- Cover-fit geometry of `drawImage` / `drawImageCover`: uniform scale
`max(canvasW/imgW, canvasH/imgH)`, centered. Returns (x, y, scaledW,
scaledH). -/
def coverFit (canvasW canvasH imgW imgH : ℚ) : ℚ × ℚ × ℚ × ℚ :=
  let scale := max (canvasW / imgW) (canvasH / imgH)
  let scaledW := imgW * scale
  let scaledH := imgH * scale
  ((canvasW - scaledW) / 2, (canvasH - scaledH) / 2, scaledW, scaledH)

/-- Axis directions of the slide/wipe effects. -/
inductive Direction where
  | left | right | up | down
deriving DecidableEq, Repr

/-- Zoom directions of the zoom effect. -/
inductive ZoomDirection where
  | inward | outward
deriving DecidableEq, Repr

/-- The helper invoked by the `switch` of `renderTransitionFrame`, with its
arguments. `draw img` is the direct `drawImage(ctx, img, w, h)` call of the
`none` case and of the `default` case. -/
inductive TransitionCall where
  | draw (image : Option Img)
  | fade (fromImg toImg : Option Img) (progress : ℚ)
  | dissolve (fromImg toImg : Option Img) (progress : ℚ)
  | slide (fromImg toImg : Option Img) (progress : ℚ) (dir : Direction)
  | wipe (fromImg toImg : Option Img) (progress : ℚ) (dir : Direction)
  | zoom (fromImg toImg : Option Img) (progress : ℚ) (dir : ZoomDirection)
  | blur (fromImg toImg : Option Img) (progress : ℚ)
  | rotate (fromImg toImg : Option Img) (progress : ℚ)
  | flip (fromImg toImg : Option Img) (progress : ℚ)
deriving DecidableEq, Repr

/-- The dispatch of `renderTransitionFrame` in `transition-renderer.ts`
(the effect kind is a string at runtime; the `default` arm handles any
value outside the sixteen known literals). -/
def renderTransitionFrame (fromImg toImg : Option Img) (progress : ℚ)
    (type : String) : TransitionCall :=
  if type = "none" then .draw (if progress < 1/2 then fromImg else toImg)
  else if type = "fade" then .fade fromImg toImg progress
  else if type = "dissolve" then .dissolve fromImg toImg progress
  else if type = "slide-left" then .slide fromImg toImg progress .left
  else if type = "slide-right" then .slide fromImg toImg progress .right
  else if type = "slide-up" then .slide fromImg toImg progress .up
  else if type = "slide-down" then .slide fromImg toImg progress .down
  else if type = "wipe-left" then .wipe fromImg toImg progress .left
  else if type = "wipe-right" then .wipe fromImg toImg progress .right
  else if type = "wipe-up" then .wipe fromImg toImg progress .up
  else if type = "wipe-down" then .wipe fromImg toImg progress .down
  else if type = "zoom-in" then .zoom fromImg toImg progress .inward
  else if type = "zoom-out" then .zoom fromImg toImg progress .outward
  else if type = "blur" then .blur fromImg toImg progress
  else if type = "rotate" then .rotate fromImg toImg progress
  else if type = "flip" then .flip fromImg toImg progress
  else .draw (if progress < 1/2 then fromImg else toImg)

/-- The sixteen effect kinds enumerated by the `TransitionType` union. -/
def knownTransitionTypes : List String :=
  ["none", "fade", "dissolve", "slide-left", "slide-right", "slide-up",
   "slide-down", "wipe-left", "wipe-right", "wipe-up", "wipe-down",
   "zoom-in", "zoom-out", "blur", "rotate", "flip"]

/-- One slide is valid when its duration is positive and, when it has a
transition config, that transition's duration is positive. -/
def validSlide (s : ImageSlide) : Bool :=
  decide (0 < s.duration) &&
    (match s.transition with
     | none => true
     | some t => decide (0 < t.duration))

/-- All slides of a list are valid. -/
def allValid (slides : List ImageSlide) : Bool := slides.all validSlide

/-- A valid slide list: non-empty, all slides valid. -/
def validSlides (slides : List ImageSlide) : Bool :=
  !slides.isEmpty && allValid slides

/-- The absolute end of an entry's last interval: the transition interval's
end when a transition is attached, the display interval's end otherwise. -/
def entryEnd (e : SlideTimeline) : ℚ :=
  match e.transitionOut with
  | none => e.endTime
  | some tr => tr.endTime

/-- The timeline entries form a contiguous chain of non-empty intervals
from `c` to `total`: each entry's display interval starts where the
previous entry ended, its transition interval (when present) starts
exactly at its display end, and all intervals are non-empty. -/
def chainFrom : ℚ → ℚ → List SlideTimeline → Prop
  | c, total, [] => c = total
  | c, total, e :: rest =>
    e.startTime = c ∧ e.startTime < e.endTime ∧
    (∀ tr, e.transitionOut = some tr →
      tr.startTime = e.endTime ∧ tr.startTime < tr.endTime) ∧
    chainFrom (entryEnd e) total rest

/-- The per-slide intervals contributed by one entry, in temporal order. -/
def entryIntervals (e : SlideTimeline) : List (ℚ × ℚ) :=
  match e.transitionOut with
  | none => [(e.startTime, e.endTime)]
  | some tr => [(e.startTime, e.endTime), (tr.startTime, tr.endTime)]

/-- All intervals of a timeline, in temporal order. -/
def timelineIntervals (tl : List SlideTimeline) : List (ℚ × ℚ) :=
  (tl.map entryIntervals).flatten

/-- A list of intervals tiles `[a, b)` exactly: each interval is non-empty,
starts where the previous one ended, the first starts at `a`, and the last
ends at `b`. -/
def intervalChain : ℚ → ℚ → List (ℚ × ℚ) → Prop
  | a, b, [] => a = b
  | a, b, iv :: rest => iv.1 = a ∧ iv.1 < iv.2 ∧ intervalChain iv.2 b rest

theorem endTime_le_entryEnd (e : SlideTimeline)
    (h : ∀ tr, e.transitionOut = some tr →
      tr.startTime = e.endTime ∧ tr.startTime < tr.endTime) :
    e.endTime ≤ entryEnd e := by
  unfold entryEnd
  cases htr : e.transitionOut with
  | none => exact le_refl _
  | some tr =>
    obtain ⟨h1, h2⟩ := h tr htr
    calc e.endTime = tr.startTime := h1.symm
      _ ≤ tr.endTime := le_of_lt h2

theorem chainFrom_le {tl : List SlideTimeline} :
    ∀ {c total : ℚ}, chainFrom c total tl → c ≤ total := by
  induction tl with
  | nil => intro c total h; exact le_of_eq h
  | cons e rest ih =>
    intro c total h
    obtain ⟨hstart, hlt, htr, hrest⟩ := h
    calc c = e.startTime := hstart.symm
      _ ≤ e.endTime := le_of_lt hlt
      _ ≤ entryEnd e := endTime_le_entryEnd e htr
      _ ≤ total := ih hrest

theorem chainFrom_mem {tl : List SlideTimeline} :
    ∀ {c total : ℚ}, chainFrom c total tl → ∀ e ∈ tl,
      c ≤ e.startTime ∧ e.startTime < e.endTime ∧ entryEnd e ≤ total ∧
      (∀ tr, e.transitionOut = some tr →
        tr.startTime = e.endTime ∧ tr.startTime < tr.endTime) := by
  induction tl with
  | nil => intro c total _ e he; exact absurd he (List.not_mem_nil e)
  | cons e0 rest ih =>
    intro c total h e he
    obtain ⟨hstart, hlt, htr, hrest⟩ := h
    rcases List.mem_cons.mp he with heq | hmem
    · subst heq
      exact ⟨le_of_eq hstart.symm, hlt, chainFrom_le hrest, htr⟩
    · obtain ⟨h1, h2, h3, h4⟩ := ih hrest e hmem
      refine ⟨?_, h2, h3, h4⟩
      calc c = e0.startTime := hstart.symm
        _ ≤ e0.endTime := le_of_lt hlt
        _ ≤ entryEnd e0 := endTime_le_entryEnd e0 htr
        _ ≤ e.startTime := h1

theorem chainFrom_get_succ {tl : List SlideTimeline} :
    ∀ {c total : ℚ} {j : ℕ} {e e' : SlideTimeline}, chainFrom c total tl →
      tl.get? j = some e → tl.get? (j + 1) = some e' →
      e'.startTime = entryEnd e := by
  induction tl with
  | nil => intro c total j e e' _ hget _; simp at hget
  | cons e0 rest ih =>
    intro c total j e e' h hget hget'
    obtain ⟨hstart, hlt, htr, hrest⟩ := h
    match j with
    | 0 =>
      simp only [List.get?_cons_zero, Option.some.injEq] at hget
      subst hget
      simp only [List.get?_cons_succ] at hget'
      match rest, hrest with
      | e1 :: rest2, hrest =>
        simp only [List.get?_cons_zero, Option.some.injEq] at hget'
        subst hget'
        exact hrest.1
    | j + 1 =>
      simp only [List.get?_cons_succ] at hget hget'
      exact ih hrest hget hget'

theorem chainFrom_last {tl : List SlideTimeline} :
    ∀ {c total : ℚ} {e : SlideTimeline}, chainFrom c total tl →
      tl.get? (tl.length - 1) = some e → total = entryEnd e := by
  induction tl with
  | nil => intro c total e _ hget; simp at hget
  | cons e0 rest ih =>
    intro c total e h hget
    obtain ⟨hstart, hlt, htr, hrest⟩ := h
    match rest, hrest, hget with
    | [], hrest, hget =>
      simp only [List.length_cons, List.length_nil, Nat.zero_add,
        Nat.sub_self, List.get?_cons_zero, Option.some.injEq] at hget
      subst hget
      exact hrest.symm
    | e1 :: rest2, hrest, hget =>
      apply ih hrest
      simpa [List.length_cons, Nat.succ_sub_one] using hget

theorem validSlide_duration {s : ImageSlide} (h : validSlide s = true) :
    0 < s.duration := by
  unfold validSlide at h
  simp only [Bool.and_eq_true, decide_eq_true_eq] at h
  exact h.1

theorem validSlide_transition {s : ImageSlide} (h : validSlide s = true) :
    ∀ t, s.transition = some t → 0 < t.duration := by
  unfold validSlide at h
  intro t ht
  simp only [Bool.and_eq_true, decide_eq_true_eq, ht] at h
  exact h.2

theorem activeTransition_eq_some {b : Bool} {o : Option TransitionConfig}
    {t : TransitionConfig} (h : activeTransition b o = some t) :
    b = false ∧ o = some t ∧ t.type ≠ "none" := by
  match b, o with
  | false, some t0 =>
    unfold activeTransition at h
    by_cases hn : t0.type = "none"
    · simp [hn] at h
    · simp [hn] at h
      subst h
      exact ⟨rfl, rfl, hn⟩
  | false, none => simp [activeTransition] at h
  | true, o => simp [activeTransition] at h

theorem buildTimelineGo_chain (slides : List ImageSlide) :
    ∀ (c : ℚ) (images : List Img), (∀ s ∈ slides, validSlide s = true) →
      chainFrom c (buildTimelineGo c slides images).2
        (buildTimelineGo c slides images).1 := by
  induction slides with
  | nil => intro c images _; simp [buildTimelineGo, chainFrom]
  | cons slide rest ih =>
    intro c images hval
    have hdur : 0 < slide.duration :=
      validSlide_duration (hval slide (List.mem_cons_self _ _))
    have hrest : ∀ s ∈ rest, validSlide s = true :=
      fun s hs => hval s (List.mem_cons_of_mem _ hs)
    cases hat : activeTransition rest.isEmpty slide.transition with
    | none =>
      simp only [buildTimelineGo, hat, chainFrom]
      refine ⟨by trivial, by linarith, by simp, ?_⟩
      simpa [entryEnd] using ih (c + slide.duration) images.tail hrest
    | some t =>
      have ht := activeTransition_eq_some hat
      have htd : 0 < t.duration := validSlide_transition
        (hval slide (List.mem_cons_self _ _)) t ht.2.1
      simp only [buildTimelineGo, hat, chainFrom]
      refine ⟨by trivial, by linarith, ?_, ?_⟩
      · intro tr htr
        simp only [Option.some.injEq] at htr
        subst htr
        exact ⟨rfl, by simp; linarith⟩
      · simpa [entryEnd] using
          ih (c + slide.duration + t.duration) images.tail hrest

theorem buildTimelineGo_length (slides : List ImageSlide) :
    ∀ (c : ℚ) (images : List Img),
      (buildTimelineGo c slides images).1.length = slides.length := by
  induction slides with
  | nil => intro c images; simp [buildTimelineGo]
  | cons slide rest ih =>
    intro c images
    cases hat : activeTransition rest.isEmpty slide.transition with
    | none => simp [buildTimelineGo, hat, ih]
    | some t => simp [buildTimelineGo, hat, ih]

theorem buildTimelineGo_head_start (slides : List ImageSlide) (c : ℚ)
    (images : List Img) (e : SlideTimeline)
    (h : (buildTimelineGo c slides images).1.get? 0 = some e) :
    e.startTime = c := by
  match slides with
  | [] => simp [buildTimelineGo] at h
  | slide :: rest =>
    cases hat : activeTransition rest.isEmpty slide.transition with
    | none =>
      simp only [buildTimelineGo, hat, List.get?_cons_zero,
        Option.some.injEq] at h
      subst h; rfl
    | some t =>
      simp only [buildTimelineGo, hat, List.get?_cons_zero,
        Option.some.injEq] at h
      subst h; rfl

theorem buildTimelineGo_get (slides : List ImageSlide) :
    ∀ (c : ℚ) (images : List Img) (j : ℕ) (e : SlideTimeline),
      (buildTimelineGo c slides images).1.get? j = some e →
      slides.get? j = some e.slide ∧
      e.endTime = e.startTime + e.slide.duration ∧
      (e.transitionOut.isSome = true ↔ (j + 1 < slides.length ∧
        ∃ t, e.slide.transition = some t ∧ t.type ≠ "none")) ∧
      (∀ tr, e.transitionOut = some tr →
        ∃ t, e.slide.transition = some t ∧
          tr.type = t.type ∧ tr.duration = t.duration ∧ tr.easing = t.easing ∧
          tr.startTime = e.endTime ∧ tr.endTime = e.endTime + t.duration) := by
  induction slides with
  | nil => intro c images j e h; simp [buildTimelineGo] at h
  | cons slide rest ih =>
    intro c images j e h
    match j with
    | 0 =>
      cases hat : activeTransition rest.isEmpty slide.transition with
      | none =>
        simp only [buildTimelineGo, hat, List.get?_cons_zero,
          Option.some.injEq] at h
        subst h
        refine ⟨rfl, rfl, ?_, by simp⟩
        simp only [Option.isSome_none, List.length_cons]
        constructor
        · intro hfalse; exact absurd hfalse (by simp)
        · rintro ⟨hlen, t, htr, htype⟩
          have hne : rest.isEmpty = false := by
            cases rest with
            | nil => simp at hlen
            | cons _ _ => rfl
          rw [hne, htr] at hat
          simp only [activeTransition] at hat
          rw [if_neg htype] at hat
          exact absurd hat (by simp)
      | some t =>
        have ht := activeTransition_eq_some hat
        simp only [buildTimelineGo, hat, List.get?_cons_zero,
          Option.some.injEq] at h
        subst h
        refine ⟨rfl, rfl, ?_, ?_⟩
        · simp only [Option.isSome_some, List.length_cons, true_iff]
          constructor
          · have : rest ≠ [] := by
              intro hnil
              rw [hnil] at ht
              simp at ht
            cases rest with
            | nil => exact absurd rfl this
            | cons _ _ => simp
          · exact ⟨t, ht.2.1, ht.2.2⟩
        · intro tr htr
          simp only [Option.some.injEq] at htr
          subst htr
          exact ⟨t, ht.2.1, rfl, rfl, rfl, rfl, rfl⟩
    | j + 1 =>
      cases hat : activeTransition rest.isEmpty slide.transition with
      | none =>
        simp only [buildTimelineGo, hat, List.get?_cons_succ] at h
        simpa [List.get?_cons_succ, List.length_cons, Nat.add_lt_add_iff_right]
          using ih (c + slide.duration) images.tail j e h
      | some t =>
        simp only [buildTimelineGo, hat, List.get?_cons_succ] at h
        simpa [List.get?_cons_succ, List.length_cons, Nat.add_lt_add_iff_right]
          using ih (c + slide.duration + t.duration) images.tail j e h

theorem resolveFrame_eq_none (tl : List SlideTimeline) :
    ∀ (c total time : ℚ) (i : ℕ), chainFrom c total tl → total ≤ time →
      resolveFrame time i tl = none := by
  induction tl with
  | nil => intro c total time i _ _; rfl
  | cons e rest ih =>
    intro c total time i h htime
    obtain ⟨hstart, hlt, htr, hrest⟩ := h
    have hend : entryEnd e ≤ total := le_trans (chainFrom_le hrest) (le_refl _)
    have hdisp : ¬(e.startTime ≤ time ∧ time < e.endTime) := by
      rintro ⟨_, h2⟩
      have : e.endTime ≤ time :=
        le_trans (endTime_le_entryEnd e htr) (le_trans hend htime)
      linarith
    simp only [resolveFrame, if_neg hdisp]
    cases htro : e.transitionOut with
    | none => exact ih (entryEnd e) total time (i + 1) hrest htime
    | some tr =>
      have htrEnd : tr.endTime = entryEnd e := by simp [entryEnd, htro]
      have hcond : ¬(tr.startTime ≤ time ∧ time < tr.endTime) := by
        rintro ⟨_, h2⟩
        rw [htrEnd] at h2
        have : entryEnd e ≤ time := le_trans hend htime
        linarith
      simp only [if_neg hcond]
      exact ih (entryEnd e) total time (i + 1) hrest htime

theorem resolveFrame_display (tl : List SlideTimeline) :
    ∀ (c total time : ℚ) (i j : ℕ) (e : SlideTimeline),
      chainFrom c total tl → tl.get? j = some e →
      e.startTime ≤ time → time < e.endTime →
      resolveFrame time i tl = some (.display (i + j) time) := by
  induction tl with
  | nil => intro c total time i j e _ hget _ _; simp at hget
  | cons e0 rest ih =>
    intro c total time i j e h hget h1 h2
    obtain ⟨hstart, hlt, htr, hrest⟩ := h
    match j with
    | 0 =>
      simp only [List.get?_cons_zero, Option.some.injEq] at hget
      subst hget
      simp only [resolveFrame, if_pos (And.intro h1 h2), Nat.add_zero]
    | j + 1 =>
      simp only [List.get?_cons_succ] at hget
      have hmem : e ∈ rest := List.get?_mem hget
      have hbounds := chainFrom_mem hrest e hmem
      have hskip : entryEnd e0 ≤ time := le_trans hbounds.1 h1
      have hdisp : ¬(e0.startTime ≤ time ∧ time < e0.endTime) := by
        rintro ⟨_, hx⟩
        have : e0.endTime ≤ time := le_trans (endTime_le_entryEnd e0 htr) hskip
        linarith
      simp only [resolveFrame, if_neg hdisp]
      have harith : i + (j + 1) = (i + 1) + j := by omega
      rw [harith]
      cases htro : e0.transitionOut with
      | none =>
        exact ih (entryEnd e0) total time (i + 1) j e hrest hget h1 h2
      | some tr =>
        have htrEnd : tr.endTime = entryEnd e0 := by simp [entryEnd, htro]
        have hcond : ¬(tr.startTime ≤ time ∧ time < tr.endTime) := by
          rintro ⟨_, hx⟩
          rw [htrEnd] at hx
          linarith
        simp only [if_neg hcond]
        exact ih (entryEnd e0) total time (i + 1) j e hrest hget h1 h2

theorem resolveFrame_transition (tl : List SlideTimeline) :
    ∀ (c total time : ℚ) (i j : ℕ) (e : SlideTimeline) (tr : TransitionOut),
      chainFrom c total tl → tl.get? j = some e → e.transitionOut = some tr →
      j + 1 < tl.length → tr.startTime ≤ time → time < tr.endTime →
      resolveFrame time i tl = some (.transitionBlend (i + j) (i + j + 1)
        (applyEasing ((time - tr.startTime) / (tr.endTime - tr.startTime))
          tr.easing)
        tr.type) := by
  induction tl with
  | nil => intro c total time i j e tr _ hget _ _ _ _; simp at hget
  | cons e0 rest ih =>
    intro c total time i j e tr h hget htro hlen h1 h2
    obtain ⟨hstart, hlt, htr, hrest⟩ := h
    match j with
    | 0 =>
      simp only [List.get?_cons_zero, Option.some.injEq] at hget
      subst hget
      obtain ⟨htrs, htrlt⟩ := htr tr htro
      have hdisp : ¬(e0.startTime ≤ time ∧ time < e0.endTime) := by
        rintro ⟨_, hx⟩
        rw [← htrs] at hx
        linarith
      have hne : rest.isEmpty = false := by
        simp only [List.length_cons] at hlen
        cases rest with
        | nil => simp at hlen
        | cons _ _ => rfl
      simp only [resolveFrame, if_neg hdisp, htro,
        if_pos (And.intro h1 h2), hne, Bool.false_eq_true, if_false,
        Nat.add_zero]
    | j + 1 =>
      simp only [List.get?_cons_succ] at hget
      have hmem : e ∈ rest := List.get?_mem hget
      have hbounds := chainFrom_mem hrest e hmem
      obtain ⟨htrs, _⟩ := hbounds.2.2.2 tr htro
      have hskip : entryEnd e0 ≤ time := by
        have : e0.startTime ≤ e.startTime := le_trans (le_of_lt hlt)
          (le_trans (endTime_le_entryEnd e0 htr) hbounds.1)
        calc entryEnd e0 ≤ e.startTime := hbounds.1
          _ ≤ e.endTime := le_of_lt hbounds.2.1
          _ = tr.startTime := htrs.symm
          _ ≤ time := h1
      have hdisp : ¬(e0.startTime ≤ time ∧ time < e0.endTime) := by
        rintro ⟨_, hx⟩
        have : e0.endTime ≤ time := le_trans (endTime_le_entryEnd e0 htr) hskip
        linarith
      simp only [resolveFrame, if_neg hdisp]
      have hlen' : j + 1 < rest.length := by
        simp only [List.length_cons] at hlen
        omega
      have harith : i + (j + 1) = (i + 1) + j := by omega
      rw [harith]
      cases htro0 : e0.transitionOut with
      | none =>
        exact ih (entryEnd e0) total time (i + 1) j e tr hrest hget htro hlen'
          h1 h2
      | some tr0 =>
        have htrEnd : tr0.endTime = entryEnd e0 := by simp [entryEnd, htro0]
        have hcond : ¬(tr0.startTime ≤ time ∧ time < tr0.endTime) := by
          rintro ⟨_, hx⟩
          rw [htrEnd] at hx
          linarith
        simp only [if_neg hcond]
        exact ih (entryEnd e0) total time (i + 1) j e tr hrest hget htro hlen'
          h1 h2

theorem chainFrom_intervalChain {tl : List SlideTimeline} :
    ∀ {c total : ℚ}, chainFrom c total tl →
      intervalChain c total (timelineIntervals tl) := by
  induction tl with
  | nil => intro c total h; exact h
  | cons e rest ih =>
    intro c total h
    obtain ⟨hstart, hlt, htr, hrest⟩ := h
    cases htro : e.transitionOut with
    | none =>
      have hend : entryEnd e = e.endTime := by simp [entryEnd, htro]
      simp only [timelineIntervals, List.map_cons, List.flatten_cons,
        entryIntervals, htro, List.cons_append, List.nil_append]
      refine ⟨hstart, hlt, ?_⟩
      have htail := ih hrest
      rw [hend] at htail
      simpa [timelineIntervals] using htail
    | some tr =>
      obtain ⟨htrs, htrlt⟩ := htr tr htro
      have hend : entryEnd e = tr.endTime := by simp [entryEnd, htro]
      simp only [timelineIntervals, List.map_cons, List.flatten_cons,
        entryIntervals, htro, List.cons_append, List.nil_append]
      refine ⟨hstart, hlt, htrs, htrlt, ?_⟩
      have htail := ih hrest
      rw [hend] at htail
      simpa [timelineIntervals] using htail

theorem intervalChain_le {l : List (ℚ × ℚ)} :
    ∀ {a b : ℚ}, intervalChain a b l → a ≤ b := by
  induction l with
  | nil => intro a b h; exact le_of_eq h
  | cons iv rest ih =>
    intro a b h
    obtain ⟨h1, h2, h3⟩ := h
    have := ih h3
    linarith

theorem intervalChain_bounds {l : List (ℚ × ℚ)} :
    ∀ {a b : ℚ}, intervalChain a b l → ∀ p ∈ l, a ≤ p.1 ∧ p.2 ≤ b := by
  induction l with
  | nil => intro a b _ p hp; exact absurd hp (List.not_mem_nil p)
  | cons iv rest ih =>
    intro a b h p hp
    obtain ⟨h1, h2, h3⟩ := h
    rcases List.mem_cons.mp hp with heq | hmem
    · subst heq
      exact ⟨le_of_eq h1.symm, intervalChain_le h3⟩
    · obtain ⟨g1, g2⟩ := ih h3 p hmem
      exact ⟨by linarith, g2⟩

theorem intervalChain_pairwise {l : List (ℚ × ℚ)} :
    ∀ {a b : ℚ}, intervalChain a b l →
      l.Pairwise (fun p q => p.2 ≤ q.1) := by
  induction l with
  | nil => intro a b _; exact List.Pairwise.nil
  | cons iv rest ih =>
    intro a b h
    obtain ⟨h1, h2, h3⟩ := h
    refine List.Pairwise.cons ?_ (ih h3)
    intro q hq
    exact (intervalChain_bounds h3 q hq).1

/-- The input list with the last slide's `transition` field removed. -/
def clearLastTransition : List ImageSlide → List ImageSlide
  | [] => []
  | [s] => [{ s with transition := none }]
  | s :: r :: rest => s :: clearLastTransition (r :: rest)

theorem clearLastTransition_cons_cons (r : ImageSlide)
    (rest : List ImageSlide) :
    ∃ y ys, clearLastTransition (r :: rest) = y :: ys := by
  cases rest with
  | nil => exact ⟨_, _, rfl⟩
  | cons x xs => exact ⟨_, _, rfl⟩

theorem buildTimelineGo_cons_total (slide : ImageSlide)
    (rest : List ImageSlide) (c : ℚ) (images : List Img) :
    (buildTimelineGo c (slide :: rest) images).2 =
      match activeTransition rest.isEmpty slide.transition with
      | some t =>
        (buildTimelineGo (c + slide.duration + t.duration) rest
          images.tail).2
      | none => (buildTimelineGo (c + slide.duration) rest images.tail).2 := by
  cases hat : activeTransition rest.isEmpty slide.transition <;>
    simp [buildTimelineGo, hat]

theorem buildTimelineGo_cons_intervals (slide : ImageSlide)
    (rest : List ImageSlide) (c : ℚ) (images : List Img) :
    timelineIntervals (buildTimelineGo c (slide :: rest) images).1 =
      match activeTransition rest.isEmpty slide.transition with
      | some t => (c, c + slide.duration) ::
          (c + slide.duration, c + slide.duration + t.duration) ::
          timelineIntervals
            (buildTimelineGo (c + slide.duration + t.duration) rest
              images.tail).1
      | none => (c, c + slide.duration) ::
          timelineIntervals
            (buildTimelineGo (c + slide.duration) rest images.tail).1 := by
  cases hat : activeTransition rest.isEmpty slide.transition <;>
    simp [buildTimelineGo, hat, timelineIntervals, entryIntervals]

theorem buildTimelineGo_clearLast (slides : List ImageSlide) :
    ∀ (c : ℚ) (images : List Img),
      (buildTimelineGo c (clearLastTransition slides) images).2
        = (buildTimelineGo c slides images).2 ∧
      timelineIntervals (buildTimelineGo c (clearLastTransition slides) images).1
        = timelineIntervals (buildTimelineGo c slides images).1 := by
  induction slides with
  | nil => intro c images; simp [clearLastTransition]
  | cons s rest ih =>
    intro c images
    cases rest with
    | nil =>
      constructor <;>
        simp [clearLastTransition, buildTimelineGo, activeTransition,
          timelineIntervals, entryIntervals]
    | cons r rest2 =>
      have hiso : (clearLastTransition (r :: rest2)).isEmpty
          = (r :: rest2).isEmpty := by
        obtain ⟨y, ys, hshape⟩ := clearLastTransition_cons_cons r rest2
        rw [hshape]; rfl
      have hcl : clearLastTransition (s :: r :: rest2)
          = s :: clearLastTransition (r :: rest2) := rfl
      constructor
      · rw [hcl, buildTimelineGo_cons_total, buildTimelineGo_cons_total, hiso]
        cases hat : activeTransition (r :: rest2).isEmpty s.transition with
        | none => exact (ih (c + s.duration) images.tail).1
        | some t => exact (ih (c + s.duration + t.duration) images.tail).1
      · rw [hcl, buildTimelineGo_cons_intervals,
          buildTimelineGo_cons_intervals, hiso]
        cases hat : activeTransition (r :: rest2).isEmpty s.transition with
        | none =>
          show (c, c + s.duration) ::
              timelineIntervals (buildTimelineGo (c + s.duration)
                (clearLastTransition (r :: rest2)) images.tail).1
            = (c, c + s.duration) ::
              timelineIntervals (buildTimelineGo (c + s.duration)
                (r :: rest2) images.tail).1
          rw [(ih (c + s.duration) images.tail).2]
        | some t =>
          show (c, c + s.duration) ::
              (c + s.duration, c + s.duration + t.duration) ::
              timelineIntervals (buildTimelineGo (c + s.duration + t.duration)
                (clearLastTransition (r :: rest2)) images.tail).1
            = (c, c + s.duration) ::
              (c + s.duration, c + s.duration + t.duration) ::
              timelineIntervals (buildTimelineGo (c + s.duration + t.duration)
                (r :: rest2) images.tail).1
          rw [(ih (c + s.duration + t.duration) images.tail).2]

theorem resolveFrame_no_fallback (tl : List SlideTimeline) :
    ∀ (time : ℚ) (i : ℕ),
      (∀ j e, tl.get? j = some e → e.transitionOut.isSome = true →
        j + 1 < tl.length) →
      ∀ (k : ℕ) (t : ℚ),
        resolveFrame time i tl ≠ some (.displayNoNext k t) := by
  induction tl with
  | nil => intro time i _ k t; simp [resolveFrame]
  | cons e0 rest ih =>
    intro time i hinv k t
    have hinv' : ∀ j e, rest.get? j = some e → e.transitionOut.isSome = true →
        j + 1 < rest.length := by
      intro j e hget hsome
      have := hinv (j + 1) e (by simpa using hget) hsome
      simpa [List.length_cons] using this
    simp only [resolveFrame]
    by_cases hdisp : e0.startTime ≤ time ∧ time < e0.endTime
    · simp [if_pos hdisp]
    · rw [if_neg hdisp]
      cases htro : e0.transitionOut with
      | none => exact ih time (i + 1) hinv' k t
      | some tr =>
        by_cases hcond : tr.startTime ≤ time ∧ time < tr.endTime
        · have hlen := hinv 0 e0 (by simp) (by simp [htro])
          have hres : rest.isEmpty = false := by
            cases rest with
            | nil => simp [List.length_cons] at hlen
            | cons _ _ => rfl
          simp [if_pos hcond, hres]
        · simp only [if_neg hcond]
          exact ih time (i + 1) hinv' k t

theorem clamp01_nonneg (t : ℚ) : 0 ≤ clamp01 t := le_max_left 0 (min 1 t)

theorem clamp01_le_one (t : ℚ) : clamp01 t ≤ 1 :=
  max_le (by norm_num) (min_le_left 1 t)

theorem clamp01_idem (t : ℚ) : clamp01 (clamp01 t) = clamp01 t := by
  calc clamp01 (clamp01 t) = max 0 (min 1 (clamp01 t)) := rfl
    _ = max 0 (clamp01 t) := by rw [min_eq_right (clamp01_le_one t)]
    _ = clamp01 t := max_eq_right (clamp01_nonneg t)

theorem clamp01_eq_self {x : ℚ} (h0 : 0 ≤ x) (h1 : x ≤ 1) : clamp01 x = x := by
  unfold clamp01
  rw [min_eq_right h1, max_eq_right h0]

/-- The four easing kinds enumerated by the `EasingType` union. -/
def knownEasingTypes : List String :=
  ["linear", "ease-in", "ease-out", "ease-in-out"]

/-- The 1-second fade of the specification's worked example. -/
def fadeTr : TransitionConfig :=
  { type := "fade", duration := 1, easing := "ease-in-out" }

/-- A 3-second slide with the given outgoing transition. -/
def exSlide (tr : Option TransitionConfig) : ImageSlide :=
  { src := "s", duration := 3, transition := tr, kenBurns := none }

/-- The worked example: 3 slides of 3 seconds, the first two with a
1-second fade, the third with no transition. -/
def exampleSlides : List ImageSlide :=
  [exSlide (some fadeTr), exSlide (some fadeTr), exSlide none]

def exampleImages : List Img := [⟨4, 3⟩, ⟨4, 3⟩, ⟨4, 3⟩]

/-- The first timeline entry that `buildTimeline` produces for the worked
example. -/
def exEntry0 : SlideTimeline :=
  { slide := exSlide (some fadeTr), image := some ⟨4, 3⟩,
    startTime := 0, endTime := 3,
    transitionOut := some { type := "fade", duration := 1,
                            easing := "ease-in-out", startTime := 3,
                            endTime := 4 } }

/-- A slide carrying a Ken Burns spec that ends at scale 2, offset
(10, 5). -/
def kbSlide : ImageSlide :=
  { src := "kb", duration := 2, transition := none,
    kenBurns := some { startScale := 1, endScale := 2,
                       startPosition := ⟨0, 0⟩,
                       endPosition := ⟨10, 5⟩ } }

def kbTimeline : List SlideTimeline := (buildTimeline [kbSlide] [⟨8, 6⟩]).1

/-- A slide with a non-positive duration. -/
def negSlide : ImageSlide :=
  { src := "neg", duration := -2, transition := none, kenBurns := none }

/-- The timeline entry that `buildTimeline` produces for `negSlide`. -/
def negEntry : SlideTimeline :=
  { slide := negSlide, image := none, startTime := 0, endTime := -2,
    transitionOut := none }

/-- C8: `applyEasing` first clamps its input to [0,1] (saturating, never an
error) and then computes exactly: linear p, ease-in p^3, ease-out
1-(1-p)^3, and for ease-in-out 4p^3 below 1/2 and 1-((-2p+2)^3)/2 from 1/2
on; every kind fixes 0 and 1, and the two ease-in-out branch formulas agree
at p = 1/2. -/
theorem claim8_apply_easing :
    (∀ (t : ℚ) (k : String), applyEasing t k = applyEasing (clamp01 t) k) ∧
    (∀ t : ℚ, applyEasing t "linear" = clamp01 t) ∧
    (∀ t : ℚ, applyEasing t "ease-in" = clamp01 t ^ 3) ∧
    (∀ t : ℚ, applyEasing t "ease-out" = 1 - (1 - clamp01 t) ^ 3) ∧
    (∀ t : ℚ, clamp01 t < 1/2 →
      applyEasing t "ease-in-out" = 4 * clamp01 t ^ 3) ∧
    (∀ t : ℚ, 1/2 ≤ clamp01 t →
      applyEasing t "ease-in-out" = 1 - (-2 * clamp01 t + 2) ^ 3 / 2) ∧
    (∀ k ∈ knownEasingTypes, applyEasing 0 k = 0 ∧ applyEasing 1 k = 1) ∧
    4 * ((1 : ℚ)/2) ^ 3 = applyEasing (1/2) "ease-in-out" ∧
    1 - (-2 * ((1 : ℚ)/2) + 2) ^ 3 / 2 = applyEasing (1/2) "ease-in-out" := by
  refine ⟨?_, ?_, ?_, ?_, ?_, ?_, ?_, ?_, ?_⟩
  · intro t k
    simp only [applyEasing, clamp01_idem]
  · intro t; simp [applyEasing]
  · intro t; simp [applyEasing]; ring
  · intro t; simp [applyEasing]
  · intro t h
    simp only [applyEasing, String.reduceEq, reduceIte, if_pos h]
    ring
  · intro t h
    simp only [applyEasing, String.reduceEq, reduceIte,
      if_neg (not_lt.mpr h)]
  · intro k hk
    fin_cases hk <;> constructor <;>
      (simp [applyEasing, clamp01]; try norm_num)
  · simp [applyEasing, clamp01]
    try norm_num
  · simp [applyEasing, clamp01]
    try norm_num

/-- Witness for C8: the below-midpoint branch applied at t = 1/4. -/
theorem claim8_apply_easing_witness :
    applyEasing (1/4 : ℚ) "ease-in-out" = 4 * clamp01 (1/4 : ℚ) ^ 3 :=
  claim8_apply_easing.2.2.2.2.1 (1/4)
    (by rw [clamp01_eq_self (by norm_num) (by norm_num)]; norm_num)

/-- C9: the `none` effect is a hard cut at the midpoint (draws `from`
cover-fit below progress 1/2, `to` from 1/2 on), and every effect kind
outside the sixteen known literals falls back to exactly the same
behavior. -/
theorem claim9_none_fallback :
    (∀ (fromImg toImg : Option Img) (p : ℚ), p < 1/2 →
      renderTransitionFrame fromImg toImg p "none" = .draw fromImg) ∧
    (∀ (fromImg toImg : Option Img) (p : ℚ), 1/2 ≤ p →
      renderTransitionFrame fromImg toImg p "none" = .draw toImg) ∧
    (∀ k, k ∉ knownTransitionTypes →
      ∀ (fromImg toImg : Option Img) (p : ℚ),
        renderTransitionFrame fromImg toImg p k
          = renderTransitionFrame fromImg toImg p "none") := by
  refine ⟨?_, ?_, ?_⟩
  · intro f g p h
    simp only [renderTransitionFrame, String.reduceEq, reduceIte]
    rw [if_pos h]
  · intro f g p h
    simp only [renderTransitionFrame, String.reduceEq, reduceIte]
    rw [if_neg (not_lt.mpr h)]
  · intro k hk f g p
    simp only [knownTransitionTypes, List.mem_cons,
      List.not_mem_nil, or_false, not_or] at hk
    obtain ⟨h1, h2, h3, h4, h5, h6, h7, h8, h9, h10, h11, h12, h13, h14,
      h15, h16⟩ := hk
    simp [renderTransitionFrame, h1, h2, h3, h4, h5, h6, h7, h8, h9, h10,
      h11, h12, h13, h14, h15, h16]

/-- Witness for C9: the unknown kind "sparkle" behaves as "none". -/
theorem claim9_none_fallback_witness :
    renderTransitionFrame (some ⟨2, 1⟩) none (1/4 : ℚ) "sparkle"
      = renderTransitionFrame (some ⟨2, 1⟩) none (1/4 : ℚ) "none" :=
  claim9_none_fallback.2.2 "sparkle"
    (by simp [knownTransitionTypes]) (some ⟨2, 1⟩) none (1/4)


theorem allValid_mem {slides : List ImageSlide}
    (h : allValid slides = true) : ∀ s ∈ slides, validSlide s = true := by
  simpa [allValid, List.all_eq_true] using h

/-- C1: the Timeline Builder computes intervals by a running cursor from 0:
each entry's display interval is [cursor, cursor + duration), a transition
interval of the configured length follows exactly when the slide is not
last and carries a non-"none" transition, consecutive entries are
contiguous, totalDuration is the final cursor, and the frame count is
ceil(totalDuration times fps); on the worked example this gives 11 seconds
and 330 frames at 30 fps. -/
theorem claim1_timeline_cursor :
    (∀ (slides : List ImageSlide) (images : List Img),
      validSlides slides = true →
      (buildTimeline slides images).1.length = slides.length ∧
      (∀ (j : ℕ) (e : SlideTimeline),
        (buildTimeline slides images).1.get? j = some e →
        slides.get? j = some e.slide ∧
        e.endTime = e.startTime + e.slide.duration ∧
        (e.transitionOut.isSome = true ↔ (j + 1 < slides.length ∧
          ∃ t, e.slide.transition = some t ∧ t.type ≠ "none")) ∧
        (∀ tr, e.transitionOut = some tr →
          ∃ t, e.slide.transition = some t ∧ tr.type = t.type ∧
            tr.duration = t.duration ∧ tr.easing = t.easing ∧
            tr.startTime = e.endTime ∧
            tr.endTime = e.endTime + t.duration)) ∧
      (∀ e, (buildTimeline slides images).1.get? 0 = some e →
        e.startTime = 0) ∧
      (∀ (j : ℕ) (e e' : SlideTimeline),
        (buildTimeline slides images).1.get? j = some e →
        (buildTimeline slides images).1.get? (j + 1) = some e' →
        e'.startTime = entryEnd e) ∧
      (∀ e, (buildTimeline slides images).1.get?
          ((buildTimeline slides images).1.length - 1) = some e →
        (buildTimeline slides images).2 = entryEnd e) ∧
      (∀ fps : ℚ, (generateFramesMeta slides images fps).2.2
          = ⌈(buildTimeline slides images).2 * fps⌉)) ∧
    (buildTimeline exampleSlides exampleImages).2 = 11 ∧
    totalFramesOf (buildTimeline exampleSlides exampleImages).2 30 = 330 := by
  have h11 : (buildTimeline exampleSlides exampleImages).2 = 11 := by
    simp [buildTimeline, buildTimelineGo, activeTransition, exampleSlides,
      exampleImages, exSlide, fadeTr]
    try norm_num
  refine ⟨?_, h11, ?_⟩
  · intro slides images hval
    have hall : ∀ s ∈ slides, validSlide s = true := by
      have hv := hval
      simp only [validSlides, Bool.and_eq_true] at hv
      exact allValid_mem hv.2
    have hchain := buildTimelineGo_chain slides 0 images hall
    refine ⟨buildTimelineGo_length slides 0 images, ?_, ?_, ?_, ?_, ?_⟩
    · intro j e hget
      exact buildTimelineGo_get slides 0 images j e hget
    · intro e hget
      exact buildTimelineGo_head_start slides 0 images e hget
    · intro j e e' hget hget'
      exact chainFrom_get_succ hchain hget hget'
    · intro e hget
      exact chainFrom_last hchain hget
    · intro fps
      rfl
  · rw [h11]
    norm_num [totalFramesOf]

/-- Witness for C1: the universally quantified part applied to the worked
example. -/
theorem claim1_timeline_cursor_witness :
    validSlides exampleSlides = true ∧
    (buildTimeline exampleSlides exampleImages).1.length = 3 := by
  refine ⟨by decide, ?_⟩
  have h := (claim1_timeline_cursor.1 exampleSlides exampleImages
    (by decide)).1
  simpa [exampleSlides] using h

/-- C2: for every slide list with positive slide and transition durations,
the built timeline's intervals tile [0, totalDuration) exactly: contiguous
(no gaps), non-empty and strictly increasing, pairwise non-overlapping,
with totalDuration the end of the final interval. -/
theorem claim2_partition (slides : List ImageSlide) (images : List Img)
    (hval : allValid slides = true) :
    intervalChain 0 (buildTimeline slides images).2
      (timelineIntervals (buildTimeline slides images).1) ∧
    (timelineIntervals (buildTimeline slides images).1).Pairwise
      (fun p q => p.2 ≤ q.1) := by
  have hchain := buildTimelineGo_chain slides 0 images (allValid_mem hval)
  exact ⟨chainFrom_intervalChain hchain,
    intervalChain_pairwise (chainFrom_intervalChain hchain)⟩

/-- Witness for C2: the partition property of the worked example. -/
theorem claim2_partition_witness :
    intervalChain 0 (buildTimeline exampleSlides exampleImages).2
      (timelineIntervals (buildTimeline exampleSlides exampleImages).1) ∧
    (timelineIntervals (buildTimeline exampleSlides exampleImages).1).Pairwise
      (fun p q => p.2 ≤ q.1) :=
  claim2_partition exampleSlides exampleImages (by decide)

/-- Counterexample to C3: the Timeline Builder does not fail on invalid
input. On the empty slide list it returns the empty timeline with
totalDuration 0 (and the frame count computation yields 0 frames), and on
a slide of duration -2 it returns a one-entry timeline whose display
interval is inverted, with totalDuration -2 — it never raises an
InvalidInput condition (its type has no failure outcome at all). -/
theorem claim3_no_validation_counterexample :
    buildTimeline ([] : List ImageSlide) ([] : List Img) = ([], 0) ∧
    generateFramesMeta ([] : List ImageSlide) ([] : List Img) 30
      = ([], 0, 0) ∧
    buildTimeline [negSlide] ([] : List Img) = ([negEntry], -2) ∧
    negEntry.endTime < negEntry.startTime := by
  refine ⟨rfl, ?_, ?_, ?_⟩
  · simp [generateFramesMeta, buildTimeline, buildTimelineGo, totalFramesOf]
  · simp [buildTimeline, buildTimelineGo, activeTransition, negSlide,
      negEntry]
    try norm_num
  · simp [negEntry]
    try norm_num

/-- C3 as amended: neither `buildTimeline` nor the entry points validate
their input. An empty slide list yields the empty timeline, totalDuration
0 and 0 frames; a slide with non-positive duration is accepted and simply
produces an entry whose display interval is degenerate (endTime at or
before startTime). Validation only exists in the separate API route. -/
theorem claim3_amended_no_validation :
    (∀ images : List Img, buildTimeline [] images = ([], 0)) ∧
    (∀ (images : List Img) (fps : ℚ),
      generateFramesMeta [] images fps = ([], 0, 0)) ∧
    (∀ (slides : List ImageSlide) (images : List Img) (j : ℕ)
        (e : SlideTimeline),
      (buildTimeline slides images).1.get? j = some e →
      e.slide.duration ≤ 0 → e.endTime ≤ e.startTime) := by
  refine ⟨fun images => rfl, ?_, ?_⟩
  · intro images fps
    simp [generateFramesMeta, buildTimeline, buildTimelineGo, totalFramesOf]
  · intro slides images j e hget hdur
    have hfacts := buildTimelineGo_get slides 0 images j e hget
    have hend := hfacts.2.1
    linarith

/-- Witness for C3's amended statement: the degenerate entry built from
`negSlide`. -/
theorem claim3_amended_no_validation_witness :
    (buildTimeline [negSlide] ([] : List Img)).1.get? 0 = some negEntry ∧
    negSlide.duration ≤ 0 ∧ negEntry.endTime ≤ negEntry.startTime := by
  have hget : (buildTimeline [negSlide] ([] : List Img)).1.get? 0
      = some negEntry := by
    simp [buildTimeline, buildTimelineGo, activeTransition, negSlide,
      negEntry]
    try norm_num
  refine ⟨hget, by norm_num [negSlide], ?_⟩
  exact claim3_amended_no_validation.2.2 [negSlide] [] 0 negEntry hget
    (by norm_num [negEntry, negSlide])


theorem renderFrame_of_resolve {time : ℚ} {tl : List SlideTimeline}
    {instr : RenderInstruction} (h : resolveFrame time 0 tl = some instr) :
    renderFrame time tl = some instr := by
  unfold renderFrame
  rw [h]

/-- C4: within a built timeline, a time inside an entry's half-open display
interval resolves to a steady-display instruction for that entry (whose
in-slide progress (time - start)/duration needs no clamping), and a time
inside an entry's transition interval resolves to a transition instruction
whose progress is the raw ratio passed through the entry's easing, from
that entry to the next; at time 3.5 the worked example yields the fade
from slide 0 to slide 1 at eased progress 1/2. -/
theorem claim4_frame_resolver :
    (∀ (slides : List ImageSlide) (images : List Img),
      allValid slides = true →
      ∀ (time : ℚ) (j : ℕ) (e : SlideTimeline),
        (buildTimeline slides images).1.get? j = some e →
        (e.startTime ≤ time → time < e.endTime →
          renderFrame time (buildTimeline slides images).1
            = some (.display j time) ∧
          clamp01 ((time - e.startTime) / e.slide.duration)
            = (time - e.startTime) / e.slide.duration) ∧
        (∀ tr, e.transitionOut = some tr → tr.startTime ≤ time →
          time < tr.endTime →
          renderFrame time (buildTimeline slides images).1
            = some (.transitionBlend j (j + 1)
                (applyEasing
                  ((time - tr.startTime) / (tr.endTime - tr.startTime))
                  tr.easing)
                tr.type))) ∧
    renderFrame (7/2) (buildTimeline exampleSlides exampleImages).1
      = some (.transitionBlend 0 1 (1/2) "fade") ∧
    applyEasing ((7/2 - 3) / (4 - 3)) "ease-in-out" = 1/2 := by
  refine ⟨?_, ?_, ?_⟩
  · intro slides images hval time j e hget
    have hall := allValid_mem hval
    have hchain := buildTimelineGo_chain slides 0 images hall
    have hfacts := buildTimelineGo_get slides 0 images j e hget
    have hsmem : e.slide ∈ slides := List.get?_mem hfacts.1
    have hdur : 0 < e.slide.duration :=
      validSlide_duration (hall e.slide hsmem)
    constructor
    · intro h1 h2
      constructor
      · apply renderFrame_of_resolve
        have := resolveFrame_display (buildTimeline slides images).1 0
          (buildTimeline slides images).2 time 0 j e hchain hget h1 h2
        simpa using this
      · have hge : 0 ≤ (time - e.startTime) / e.slide.duration :=
          div_nonneg (by linarith) (le_of_lt hdur)
        have hle : (time - e.startTime) / e.slide.duration ≤ 1 := by
          rw [div_le_one hdur]
          have := hfacts.2.1
          linarith
        exact clamp01_eq_self hge hle
    · intro tr htro h1 h2
      have hlen : j + 1 < (buildTimeline slides images).1.length := by
        have hiff := hfacts.2.2.1
        have hsome : e.transitionOut.isSome = true := by simp [htro]
        have := (hiff.mp hsome).1
        have hlens : (buildTimeline slides images).1.length = slides.length :=
          buildTimelineGo_length slides 0 images
        omega
      apply renderFrame_of_resolve
      have := resolveFrame_transition (buildTimeline slides images).1 0
        (buildTimeline slides images).2 time 0 j e tr hchain hget htro hlen
        h1 h2
      simpa using this
  · simp [renderFrame, resolveFrame, buildTimeline, buildTimelineGo,
      activeTransition, exampleSlides, exampleImages, exSlide, fadeTr,
      applyEasing, clamp01]
    try norm_num
  · simp [applyEasing, clamp01]
    try norm_num

/-- Witness for C4: slide 0's display interval of the worked example
contains time 1. -/
theorem claim4_frame_resolver_witness :
    ∃ e, (buildTimeline exampleSlides exampleImages).1.get? 0 = some e ∧
      (renderFrame 1 (buildTimeline exampleSlides exampleImages).1
          = some (.display 0 1) ∧
        clamp01 ((1 - e.startTime) / e.slide.duration)
          = (1 - e.startTime) / e.slide.duration) := by
  have hget : (buildTimeline exampleSlides exampleImages).1.get? 0
      = some exEntry0 := by
    simp [buildTimeline, buildTimelineGo, activeTransition, exampleSlides,
      exampleImages, exSlide, fadeTr, exEntry0]
    try norm_num
  refine ⟨_, hget, ?_⟩
  exact (claim4_frame_resolver.1 exampleSlides exampleImages (by decide)
    1 0 _ hget).1 (by norm_num [exEntry0]) (by norm_num [exEntry0])

/-- C5: the Frame Resolver is total on timelines built from valid slide
lists: the function produces exactly one instruction for every time in
[0, totalDuration] (in fact for every time), never none and never an
exception — the scan returns at the first match and the fallback covers
the rest. -/
theorem claim5_resolver_total (slides : List ImageSlide)
    (images : List Img) (hval : validSlides slides = true) (time : ℚ)
    (h0 : 0 ≤ time) (h1 : time ≤ (buildTimeline slides images).2) :
    (renderFrame time (buildTimeline slides images).1).isSome = true := by
  have hne : slides ≠ [] := by
    intro h
    rw [h] at hval
    simp [validSlides] at hval
  have hlen : (buildTimeline slides images).1.length = slides.length :=
    buildTimelineGo_length slides 0 images
  have htl : (buildTimeline slides images).1.isEmpty = false := by
    cases hx : (buildTimeline slides images).1 with
    | nil =>
      rw [hx] at hlen
      cases slides with
      | nil => exact absurd rfl hne
      | cons a b => simp at hlen
    | cons a b => rfl
  unfold renderFrame
  cases hres : resolveFrame time 0 (buildTimeline slides images).1 with
  | some instr => simp
  | none => simp [htl]

/-- Witness for C5: the worked example at time 0. -/
theorem claim5_resolver_total_witness :
    (renderFrame 0 (buildTimeline exampleSlides exampleImages).1).isSome
      = true :=
  claim5_resolver_total exampleSlides exampleImages (by decide) 0
    (by norm_num)
    (by
      simp [buildTimeline, buildTimelineGo, activeTransition, exampleSlides,
        exampleImages, exSlide, fadeTr]
      try norm_num)

/-- Counterexample to C6: past the end of the timeline the code draws the
last slide's image plain cover-fit (`drawImageCover`), not a steady-display
render at progress 1: for a last slide carrying a Ken Burns spec ending at
scale 2, offset (10, 5), the freeze-frame draw differs from the
steady-display draw at progress 1. -/
theorem claim6_freeze_frame_counterexample :
    (buildTimeline [kbSlide] [⟨8, 6⟩]).2 = 2 ∧
    renderFrame 2 kbTimeline = some (.lastCover 0) ∧
    (renderFrame 2 kbTimeline).bind (instructionDraw kbTimeline)
      = some (DrawOp.cover (some ⟨8, 6⟩)) ∧
    (kbTimeline.get? 0).map (fun e => renderSlideWithKenBurns e 2)
      = some (DrawOp.kenBurnsDraw (some ⟨8, 6⟩) 2 10 5) ∧
    DrawOp.cover (some ⟨8, 6⟩) ≠ DrawOp.kenBurnsDraw (some ⟨8, 6⟩) 2 10 5 := by
  refine ⟨?_, ?_, ?_, ?_, ?_⟩
  · simp [buildTimeline, buildTimelineGo, activeTransition, kbSlide]
    try norm_num
  · simp [renderFrame, resolveFrame, kbTimeline, buildTimeline,
      buildTimelineGo, activeTransition, kbSlide]
    try norm_num
  · have h2 : renderFrame 2 kbTimeline = some (.lastCover 0) := by
      simp [renderFrame, resolveFrame, kbTimeline, buildTimeline,
        buildTimelineGo, activeTransition, kbSlide]
      try norm_num
    rw [h2]
    simp [instructionDraw, kbTimeline, buildTimeline, buildTimelineGo,
      activeTransition, kbSlide]
  · simp [kbTimeline, buildTimeline, buildTimelineGo, activeTransition,
      kbSlide, renderSlideWithKenBurns]
    try norm_num
  · simp

/-- C6 as amended: for every time at or past totalDuration of a timeline
built from a valid slide list, `renderFrame` falls through to the
past-the-end branch, which draws the last entry's image plain cover-fit,
ignoring progress and any Ken Burns spec; this coincides with a
steady-display render at progress 1 exactly when the last slide carries no
Ken Burns spec. -/
theorem claim6_amended_freeze_frame (slides : List ImageSlide)
    (images : List Img) (hval : validSlides slides = true) (time : ℚ)
    (hpast : (buildTimeline slides images).2 ≤ time) :
    renderFrame time (buildTimeline slides images).1
      = some (.lastCover ((buildTimeline slides images).1.length - 1)) ∧
    (∀ e, (buildTimeline slides images).1.get?
        ((buildTimeline slides images).1.length - 1) = some e →
      instructionDraw (buildTimeline slides images).1
          (.lastCover ((buildTimeline slides images).1.length - 1))
        = some (DrawOp.cover e.image) ∧
      (e.slide.kenBurns = none →
        DrawOp.cover e.image = renderSlideWithKenBurns e time)) := by
  have hv := hval
  simp only [validSlides, Bool.and_eq_true] at hv
  have hall := allValid_mem hv.2
  have hchain := buildTimelineGo_chain slides 0 images hall
  have hnone := resolveFrame_eq_none (buildTimeline slides images).1 0
    (buildTimeline slides images).2 time 0 hchain hpast
  have hne : slides ≠ [] := by
    intro h
    rw [h] at hval
    simp [validSlides] at hval
  have hlen : (buildTimeline slides images).1.length = slides.length :=
    buildTimelineGo_length slides 0 images
  have htl : (buildTimeline slides images).1.isEmpty = false := by
    cases hx : (buildTimeline slides images).1 with
    | nil =>
      rw [hx] at hlen
      cases slides with
      | nil => exact absurd rfl hne
      | cons a b => simp at hlen
    | cons a b => rfl
  constructor
  · unfold renderFrame
    rw [hnone]
    simp [htl]
  · intro e hget
    constructor
    · simp only [instructionDraw]
      rw [hget]
      rfl
    · intro hkb
      simp [renderSlideWithKenBurns, hkb]

/-- Witness for C6's amended statement: the worked example at time 11. -/
theorem claim6_amended_freeze_frame_witness :
    renderFrame 11 (buildTimeline exampleSlides exampleImages).1
      = some (.lastCover
          ((buildTimeline exampleSlides exampleImages).1.length - 1)) :=
  (claim6_amended_freeze_frame exampleSlides exampleImages (by decide) 11
    (by
      simp [buildTimeline, buildTimelineGo, activeTransition, exampleSlides,
        exampleImages, exSlide, fadeTr]
      try norm_num)).1

/-- C7: the last slide's configured transition is always ignored: removing
it changes neither totalDuration nor any timeline interval, for every
slide list and image list. -/
theorem claim7_last_transition_ignored (slides : List ImageSlide)
    (images : List Img) :
    (buildTimeline (clearLastTransition slides) images).2
      = (buildTimeline slides images).2 ∧
    timelineIntervals (buildTimeline (clearLastTransition slides) images).1
      = timelineIntervals (buildTimeline slides images).1 :=
  buildTimelineGo_clearLast slides 0 images

/-- C10: in every built timeline an entry carrying a transitionOut is
followed by a further entry, and consequently the resolver's internal
no-next-slide fallback inside the transition case can never fire on a
built timeline. -/
theorem claim10_transition_has_next (slides : List ImageSlide)
    (images : List Img) :
    (∀ (j : ℕ) (e : SlideTimeline),
      (buildTimeline slides images).1.get? j = some e →
      e.transitionOut.isSome = true →
      j + 1 < (buildTimeline slides images).1.length) ∧
    (∀ (time : ℚ) (k : ℕ) (t : ℚ),
      renderFrame time (buildTimeline slides images).1
        ≠ some (.displayNoNext k t)) := by
  have hinv : ∀ (j : ℕ) (e : SlideTimeline),
      (buildTimeline slides images).1.get? j = some e →
      e.transitionOut.isSome = true →
      j + 1 < (buildTimeline slides images).1.length := by
    intro j e hget hsome
    have hfacts := buildTimelineGo_get slides 0 images j e hget
    have hlens : (buildTimeline slides images).1.length = slides.length :=
      buildTimelineGo_length slides 0 images
    have := (hfacts.2.2.1.mp hsome).1
    omega
  refine ⟨hinv, ?_⟩
  intro time k t
  unfold renderFrame
  cases hres : resolveFrame time 0 (buildTimeline slides images).1 with
  | some instr =>
    have hno := resolveFrame_no_fallback (buildTimeline slides images).1
      time 0 hinv k t
    rw [hres] at hno
    simpa using hno
  | none =>
    by_cases hemp : (buildTimeline slides images).1.isEmpty = true
    · simp [hemp]
    · simp only [Bool.not_eq_true] at hemp
      simp [hemp]

/-- Witness for C10: no time in the worked example hits the fallback. -/
theorem claim10_transition_has_next_witness :
    renderFrame 5 (buildTimeline exampleSlides exampleImages).1
      ≠ some (.displayNoNext 0 5) :=
  (claim10_transition_has_next exampleSlides exampleImages).2 5 0 5

end ImageToVideo
